import Mathlib

/-!
A verification development for the BYC interpreter (`main.py`), a small
imperative scripting language implemented as a lexer / parser / interpreter
pipeline.  The Python source is shallowly embedded:

* the `re`-based scanner of `Lexer.tokenize` is modelled as a
  priority-ordered maximal-munch scanner over `List Char` (the regular
  expression alternation tries NUMBER, IDENT, STRING, OP, COLON, LPAREN,
  RPAREN, LBRACE, RBRACE, SKIP, MISMATCH in order at every position, each
  branch with a greedy quantifier and nothing after it, which is exactly
  first-branch-wins maximal munch); character classes are modelled over
  ASCII (all inputs considered here are ASCII);
* fallible Python code (raised `RuntimeError`s, `TypeError` from
  subscripting `None`, `ZeroDivisionError`, operator type errors) is
  modelled with `Except Err`;
* recursion is bounded by an explicit fuel parameter; `Err.outOfFuel` is an
  artifact of the embedding and never occurs for the wrapper entry points
  on the inputs considered here;
* Python floats are modelled as rationals; every claim below only
  exercises exactly representable values such as `4 / 2 = 2.0`;
* Python `int` is modelled as `ℤ` (Python integers are unbounded).
-/

/-- Token values: Python stores `int(value)` for NUMBER matches and the
(quote-stripped, for STRING) matched text otherwise (`main.py` lines 28-31). -/
inductive TokVal where
  | num (n : ℤ)
  | str (s : String)
  deriving DecidableEq

/-- A token is the pair `(kind, value)` appended at `main.py` line 38.
Kinds are plain Python strings; in particular the keyword promotion
`kind = value.upper()` (line 33) maps the identifier `string` to the kind
`"STRING"`, the same string as the string-literal kind. -/
structure Token where
  kind : String
  value : TokVal
  deriving DecidableEq

/-- Errors of the pipeline.  `lexError` is the `RuntimeError` of line 37,
`parseError` the parser `RuntimeError`s (lines 72, 108, 124, 138),
`unknownOp` the `RuntimeError` of line 212, `noneSubscript` the host
`TypeError` raised when the parser subscripts `self.current_token` while it
is `None`, `typeError`/`zeroDivision` host-level errors in the evaluator,
and `outOfFuel` the fuel artifact of the embedding. -/
inductive Err where
  | lexError (c : Char)
  | parseError (msg : String)
  | noneSubscript
  | typeError
  | zeroDivision
  | unknownOp (op : TokVal)
  | outOfFuel
  deriving DecidableEq

/-- `\d` over ASCII. -/
def isDigitCh (c : Char) : Bool := 48 ≤ c.toNat && c.toNat ≤ 57

/-- `[A-Za-z]` over ASCII. -/
def isAlphaCh (c : Char) : Bool :=
  (65 ≤ c.toNat && c.toNat ≤ 90) || (97 ≤ c.toNat && c.toNat ≤ 122)

/-- `[A-Za-z_]`, the first character of the IDENT pattern. -/
def isIdentStartCh (c : Char) : Bool := isAlphaCh c || c.toNat == 95

/-- `\w` = `[A-Za-z0-9_]` over ASCII, the continuation of IDENT. -/
def isIdentCh (c : Char) : Bool := isAlphaCh c || isDigitCh c || c.toNat == 95

/-- The OP character class `[+\-*/=<>!]` (`main.py` line 15). -/
def isOpCh (c : Char) : Bool :=
  c == '+' || c == '-' || c == '*' || c == '/' ||
  c == '=' || c == '<' || c == '>' || c == '!'

/-- The SKIP class `[ \t\n]` (`main.py` line 21). -/
def isSkipCh (c : Char) : Bool := c == ' ' || c == '\t' || c == '\n'

/-- The opening and closing brace characters, written by code point. -/
def lbraceCh : Char := Char.ofNat 123

/-- The closing brace character. -/
def rbraceCh : Char := Char.ofNat 125

/-- Keyword promotion of `main.py` lines 8 and 32-33: if an IDENT's text is
in `['int', 'string', 'if', 'else', 'for', 'print', 'range']` its kind
becomes `value.upper()`; the upper-cased forms are written out per keyword.
Note `"string".upper() = "STRING"` collides with the string-literal kind. -/
def kwKind (s : String) : Option String :=
  if s = "int" then some "INT"
  else if s = "string" then some "STRING"
  else if s = "if" then some "IF"
  else if s = "else" then some "ELSE"
  else if s = "for" then some "FOR"
  else if s = "print" then some "PRINT"
  else if s = "range" then some "RANGE"
  else none

/-- Python `int(...)` on a matched digit run. -/
def digitsVal (w : List Char) : Nat := w.foldl (fun a c => a * 10 + (c.toNat - 48)) 0

/-- One scanning step of `Lexer.tokenize` (`main.py` lines 10-39) at a
position whose first character is `c`, abstracted over the recursive
continuation `recur`.  The branches are tried in the priority order of
`token_specification`; a matching branch consumes its maximal match and
continues after it; SKIP produces no token; MISMATCH raises.  In the
STRING branch the character the `dropWhile` stopped at is necessarily the
closing quote when the remainder is nonempty, so the inner `else` is dead;
an unterminated quote falls through to MISMATCH at the opening quote,
exactly as the regular expression `"[^"]*"` fails there and `.` matches
the quote itself. -/
def tokStep (recur : List Char → Except Err (List Token)) (c : Char)
    (rest : List Char) : Except Err (List Token) :=
  if isDigitCh c then
    (recur (rest.dropWhile isDigitCh)).map
      (fun ts => ⟨"NUMBER", .num (digitsVal (c :: rest.takeWhile isDigitCh))⟩ :: ts)
  else if isIdentStartCh c then
    (recur (rest.dropWhile isIdentCh)).map
      (fun ts =>
        let s := String.mk (c :: rest.takeWhile isIdentCh)
        ⟨(kwKind s).getD "IDENT", .str s⟩ :: ts)
  else if c == '"' then
    match rest.dropWhile (fun d => !(d == '"')) with
    | d :: rem =>
      if d == '"' then
        (recur rem).map
          (fun ts => ⟨"STRING", .str (String.mk (rest.takeWhile (fun d => !(d == '"'))))⟩ :: ts)
      else .error (.lexError '"')
    | [] => .error (.lexError '"')
  else if isOpCh c then
    (recur (rest.dropWhile isOpCh)).map
      (fun ts => ⟨"OP", .str (String.mk (c :: rest.takeWhile isOpCh))⟩ :: ts)
  else if c == ':' then (recur rest).map (fun ts => ⟨"COLON", .str ":"⟩ :: ts)
  else if c == '(' then (recur rest).map (fun ts => ⟨"LPAREN", .str "("⟩ :: ts)
  else if c == ')' then (recur rest).map (fun ts => ⟨"RPAREN", .str ")"⟩ :: ts)
  else if c == lbraceCh then (recur rest).map (fun ts => ⟨"LBRACE", .str "\x7b"⟩ :: ts)
  else if c == rbraceCh then (recur rest).map (fun ts => ⟨"RBRACE", .str "\x7d"⟩ :: ts)
  else if isSkipCh c then recur rest
  else .error (.lexError c)

/-- The fuelled scanner: one `tokStep` per match, recursing with one unit
of fuel less on the remainder of the input. -/
def tokenizeF : Nat → List Char → Except Err (List Token)
  | 0, _ => .error .outOfFuel
  | _+1, [] => .ok []
  | f+1, c :: rest => tokStep (tokenizeF f) c rest

/-- `Lexer.tokenize` on a character list, with always-sufficient fuel. -/
def tokenizeL (l : List Char) : Except Err (List Token) := tokenizeF (l.length + 1) l

/-- `Lexer.tokenize` on a source string. -/
def tokenizeStr (s : String) : Except Err (List Token) := tokenizeL s.data

/-- Expression AST nodes built by `Parser.parse_expression`: either the
tuple `(token_type, value)` of line 136 (an atom, whose kind is one of
`NUMBER`, `STRING`, `IDENT`), or the tuple
`('OPERATION', op, (token_type, value), right)` of line 135. -/
inductive Expr where
  | atom (kind : String) (value : TokVal)
  | operation (op : TokVal) (left right : Expr)
  deriving DecidableEq

/-- Statement AST nodes: `('DECLARE', type, name, value-or-None)` (line 84),
`('IF', cond, if_block, else_block-or-None)` (line 98),
`('FOR', ident, range_expr, block)` (line 112), `('PRINT', expr)`
(line 117).  The `name`/`var` fields hold the raw token values used as
dictionary keys by the interpreter. -/
inductive Stmt where
  | declare (typeName : TokVal) (name : TokVal) (init : Option Expr)
  | ifS (cond : Expr) (thenB : List Stmt) (elseB : Option (List Stmt))
  | forS (var : TokVal) (range : Expr) (body : List Stmt)
  | printS (e : Expr)

/-- The optional-colon consumption of lines 89-90 / 95-96 / 109-110:
`if self.current_token and self.current_token[1] == ':': self.next_token()`. -/
def consumeOptColon (l : List Token) : List Token :=
  match l with
  | t :: ts => if t.value = TokVal.str ":" then ts else l
  | [] => l

mutual

/-- `Parser.parse_expression` (lines 119-138).  The token list plays the
role of `current_token` plus the remaining queue (its head is
`current_token`); `.error .noneSubscript` marks the places where the Python
code subscripts `self.current_token` while it is `None` (lines 120 and 123
when the input is exhausted). -/
def parseExpression : Nat → List Token → Except Err (Expr × List Token)
  | 0, _ => .error .outOfFuel
  | _+1, [] => .error .noneSubscript
  | f+1, t :: ts =>
    if t.kind = "LPAREN" then
      match parseExpression f ts with
      | .error e => .error e
      | .ok (e, rem) =>
        match rem with
        | [] => .error .noneSubscript
        | t2 :: ts2 =>
          if t2.kind = "RPAREN" then .ok (e, ts2)
          else .error (.parseError "Expected \")\"")
    else if t.kind = "NUMBER" ∨ t.kind = "STRING" ∨ t.kind = "IDENT" then
      match ts with
      | t2 :: ts2 =>
        if t2.kind = "OP" then
          match parseExpression f ts2 with
          | .error e => .error e
          | .ok (r, rem) => .ok (.operation t2.value (.atom t.kind t.value) r, rem)
        else .ok (.atom t.kind t.value, ts)
      | [] => .ok (.atom t.kind t.value, [])
    else .error (.parseError ("Unexpected token in expression: " ++ t.kind))

/-- `Parser.parse_statement` (lines 62-72); dispatch is on the current
token's kind, with `'INT' or 'STRING'` selecting a declaration. -/
def parseStatement : Nat → List Token → Except Err (Stmt × List Token)
  | 0, _ => .error .outOfFuel
  | _+1, [] => .error .noneSubscript
  | f+1, t :: ts =>
    if t.kind = "INT" ∨ t.kind = "STRING" then parseDeclaration f t ts
    else if t.kind = "IF" then parseIf f ts
    else if t.kind = "FOR" then parseFor f ts
    else if t.kind = "PRINT" then parsePrint f ts
    else .error (.parseError ("Unexpected token: " ++ t.kind))

/-- `Parser.parse_declaration` (lines 74-84); `typeTok` is the already
current type token.  When the identifier token is missing (`rest = []`)
Python reaches `ident_token[1]` with `ident_token = None` in the `return`
of line 84 and raises a host `TypeError`. -/
def parseDeclaration : Nat → Token → List Token → Except Err (Stmt × List Token)
  | 0, _, _ => .error .outOfFuel
  | f+1, typeTok, rest =>
    match rest with
    | identTok :: rest1 =>
      match rest1 with
      | t2 :: ts2 =>
        if t2.value = TokVal.str "=" then
          match parseExpression f ts2 with
          | .error e => .error e
          | .ok (e, rem) => .ok (.declare typeTok.value identTok.value (some e), rem)
        else .ok (.declare typeTok.value identTok.value none, rest1)
      | [] => .ok (.declare typeTok.value identTok.value none, [])
    | [] => .error .noneSubscript

/-- `Parser.parse_if` (lines 86-98), entered after consuming the IF token. -/
def parseIf : Nat → List Token → Except Err (Stmt × List Token)
  | 0, _ => .error .outOfFuel
  | f+1, ts =>
    match parseExpression f ts with
    | .error e => .error e
    | .ok (cond, rem) =>
      match parseBlock f (consumeOptColon rem) with
      | .error e => .error e
      | .ok (thn, rem2) =>
        match rem2 with
        | t :: ts2 =>
          if t.kind = "ELSE" then
            match parseBlock f (consumeOptColon ts2) with
            | .error e => .error e
            | .ok (els, rem3) => .ok (.ifS cond thn (some els), rem3)
          else .ok (.ifS cond thn none, rem2)
        | [] => .ok (.ifS cond thn none, [])

/-- `Parser.parse_for` (lines 100-112), entered after consuming the FOR
token.  If the stream ends before the `in` check, `self.current_token` is
`None`, which is falsy, so the diagnostic `RuntimeError` of line 108 is
raised (the later `ident_token[1]` is never reached with `None`). -/
def parseFor : Nat → List Token → Except Err (Stmt × List Token)
  | 0, _ => .error .outOfFuel
  | f+1, ts =>
    match ts with
    | identTok :: rest1 =>
      match rest1 with
      | t2 :: ts2 =>
        if t2.value = TokVal.str "in" then
          match parseExpression f ts2 with
          | .error e => .error e
          | .ok (r, rem) =>
            match parseBlock f (consumeOptColon rem) with
            | .error e => .error e
            | .ok (blk, rem2) => .ok (.forS identTok.value r blk, rem2)
        else .error (.parseError "Expected \"in\" in for loop")
      | [] => .error (.parseError "Expected \"in\" in for loop")
    | [] => .error (.parseError "Expected \"in\" in for loop")

/-- `Parser.parse_print` (lines 114-117), entered after consuming PRINT. -/
def parsePrint : Nat → List Token → Except Err (Stmt × List Token)
  | 0, _ => .error .outOfFuel
  | f+1, ts =>
    match parseExpression f ts with
    | .error e => .error e
    | .ok (e, rem) => .ok (.printS e, rem)

/-- `Parser.parse_block` (lines 140-146): statements are parsed until the
current token's value is the closing brace (or the stream ends); a closing
brace is then consumed if present.  Note the opening brace is never
consumed by any rule. -/
def parseBlock : Nat → List Token → Except Err (List Stmt × List Token)
  | 0, _ => .error .outOfFuel
  | _+1, [] => .ok ([], [])
  | f+1, t :: ts =>
    if t.value = TokVal.str "\x7d" then .ok ([], ts)
    else
      match parseStatement f (t :: ts) with
      | .error e => .error e
      | .ok (s, rem) =>
        match parseBlock f rem with
        | .error e => .error e
        | .ok (ss, rem2) => .ok (s :: ss, rem2)

/-- `Parser.parse_program` (lines 56-60). -/
def parseProgram : Nat → List Token → Except Err (List Stmt)
  | 0, _ => .error .outOfFuel
  | _+1, [] => .ok []
  | f+1, t :: ts =>
    match parseStatement f (t :: ts) with
    | .error e => .error e
    | .ok (s, rem) =>
      match parseProgram f rem with
      | .error e => .error e
      | .ok ss => .ok (s :: ss)

end

/-- `Parser(tokens).parse()` with ample fuel for the token count. -/
def parseTokens (toks : List Token) : Except Err (List Stmt) :=
  parseProgram (8 * toks.length + 16) toks

/-- Lex then parse a source string (the pipeline up to `main.py` line 228). -/
def parseSource (src : String) : Except Err (List Stmt) :=
  match tokenizeStr src with
  | .error e => .error e
  | .ok toks => parseTokens toks

/-- Runtime values of the interpreter.  Integers, floats (modelled as
rationals), strings and booleans are the proper Python values that can
arise; `node e` is the raw AST tuple itself, which `Interpreter.evaluate`
returns unchanged when it falls through every branch (line 189) -- this is
what actually happens for every bare-identifier atom, because the parser
always wraps identifiers as tuples `('IDENT', name)` and the tuple branch
of `evaluate` has no case for the kind `'IDENT'`; the `int`/`str` and
`self.variables` branches of lines 185-188 are unreachable for
parser-produced expressions. -/
inductive Value where
  | int (n : ℤ)
  | float (q : ℚ)
  | str (s : String)
  | bool (b : Bool)
  | node (e : Expr)
  deriving DecidableEq

/-- The environment `self.variables`: a Python dict from the raw token
values used as keys (always strings for lexed programs) to values, in
insertion order, one entry per key. -/
abbrev Env := List (TokVal × Value)

/-- Dict lookup. -/
def getVar : Env → TokVal → Option Value
  | [], _ => none
  | (k, v) :: rest, x => if k = x then some v else getVar rest x

/-- Dict assignment `self.variables[x] = v`: update in place if the key is
present, else append. -/
def setVar : Env → TokVal → Value → Env
  | [], x, v => [(x, v)]
  | (k, w) :: rest, x, v => if k = x then (x, v) :: rest else (k, w) :: setVar rest x v

/-- Numeric view of a value: Python's arithmetic treats `bool` as the
integers 0/1 and mixes `int` and `float` freely. -/
def numQ : Value → Option ℚ
  | .int n => some (n : ℚ)
  | .float q => some q
  | .bool b => some (if b then 1 else 0)
  | _ => none

/-- Integer-like view (`int` and `bool`): used to decide when Python's
`+`, `-`, `*` produce an `int` rather than a `float`. -/
def intLike : Value → Option ℤ
  | .int n => some n
  | .bool b => some (if b then 1 else 0)
  | _ => none

/-- Python `+`: numeric addition (int-like operands give an int, any float
gives a float) or string concatenation.  Python would additionally
concatenate two tuple values (`node` + `node`) and sequences generally;
no expression reachable from the claims performs that, and it is modelled
as a host `TypeError` like the other invalid pairs. -/
def pyAdd (l r : Value) : Except Err Value :=
  match l, r with
  | .str a, .str b => .ok (.str (a ++ b))
  | _, _ =>
    match intLike l, intLike r with
    | some a, some b => .ok (.int (a + b))
    | _, _ =>
      match numQ l, numQ r with
      | some a, some b => .ok (.float (a + b))
      | _, _ => .error .typeError

/-- Python `-`: numeric only. -/
def pySub (l r : Value) : Except Err Value :=
  match intLike l, intLike r with
  | some a, some b => .ok (.int (a - b))
  | _, _ =>
    match numQ l, numQ r with
    | some a, some b => .ok (.float (a - b))
    | _, _ => .error .typeError

/-- Python `*`: numeric multiplication.  Python's sequence repetition
(`str * int` etc.) is unreachable from the claims and modelled as a host
`TypeError`. -/
def pyMul (l r : Value) : Except Err Value :=
  match intLike l, intLike r with
  | some a, some b => .ok (.int (a * b))
  | _, _ =>
    match numQ l, numQ r with
    | some a, some b => .ok (.float (a * b))
    | _, _ => .error .typeError

/-- Python `/`: true division, always yielding a float; division by zero
raises `ZeroDivisionError` (uncaught, `main.py` line 199). -/
def pyDiv (l r : Value) : Except Err Value :=
  match numQ l, numQ r with
  | some a, some b => if b = 0 then .error .zeroDivision else .ok (.float (a / b))
  | _, _ => .error .typeError

/-- Python `==` on the values that can arise: numeric values compare by
numeric value (`True == 1`, `2 == 2.0`), strings and tuples structurally,
and values of unrelated types are unequal. -/
def pyEq (l r : Value) : Bool :=
  match numQ l, numQ r with
  | some a, some b => a == b
  | _, _ =>
    match l, r with
    | .str a, .str b => a == b
    | .node a, .node b => a == b
    | _, _ => false

/-- Python `<` / `>` / `<=` / `>=`: numeric against numeric, string against
string (lexicographic); other pairs raise `TypeError` (tuple-tuple
comparison, unreachable from the claims, is also modelled as an error). -/
def pyCmp (cmpQ : ℚ → ℚ → Bool) (cmpS : String → String → Bool)
    (l r : Value) : Except Err Value :=
  match numQ l, numQ r with
  | some a, some b => .ok (.bool (cmpQ a b))
  | _, _ =>
    match l, r with
    | .str a, .str b => .ok (.bool (cmpS a b))
    | _, _ => .error .typeError

/-- `Interpreter.apply_operation` (lines 191-212): the operator symbol is
compared against each supported literal in order; anything else raises the
`Unknown operator` `RuntimeError`.  The operator is the raw token value
(`op = self.current_token[1]` at line 132). -/
def applyOperation (op : TokVal) (l r : Value) : Except Err Value :=
  if op = TokVal.str "+" then pyAdd l r
  else if op = TokVal.str "-" then pySub l r
  else if op = TokVal.str "*" then pyMul l r
  else if op = TokVal.str "/" then pyDiv l r
  else if op = TokVal.str "==" then .ok (.bool (pyEq l r))
  else if op = TokVal.str "<" then
    pyCmp (fun a b => decide (a < b)) (fun a b => decide (a < b)) l r
  else if op = TokVal.str ">" then
    pyCmp (fun a b => decide (b < a)) (fun a b => decide (b < a)) l r
  else if op = TokVal.str "<=" then
    pyCmp (fun a b => decide (a ≤ b)) (fun a b => decide (a < b) || a == b) l r
  else if op = TokVal.str ">=" then
    pyCmp (fun a b => decide (b ≤ a)) (fun a b => decide (b < a) || a == b) l r
  else if op = TokVal.str "!=" then .ok (.bool (!(pyEq l r)))
  else .error (.unknownOp op)

/-- The atom value of line 184: `expr[1]` for kinds NUMBER and STRING. -/
def tokValValue : TokVal → Value
  | .num n => .int n
  | .str s => .str s

/-- `Interpreter.evaluate` (lines 176-189).  Every expression the parser
produces is a tuple, so only the `isinstance(expr, tuple)` branch applies:
OPERATION recurses and applies the operator; NUMBER and STRING return the
stored value; every other kind (in particular IDENT) falls off the inner
`if`/`elif` chain and reaches `return expr` at line 189, returning the raw
tuple.  The environment parameter mirrors `self.variables`, which this
method never actually reads on parser-produced input (the lookup of lines
187-188 sits under `elif isinstance(expr, (int, str))`-adjacent branches
that a tuple can never reach). -/
def evaluate (env : Env) : Expr → Except Err Value
  | .operation op l r =>
    match evaluate env l with
    | .error e => .error e
    | .ok lv =>
      match evaluate env r with
      | .error e => .error e
      | .ok rv => applyOperation op lv rv
  | .atom k v =>
    if k = "NUMBER" ∨ k = "STRING" then .ok (tokValValue v)
    else .ok (.node (.atom k v))

/-- Python truthiness of the values that can arise (used by `if`):
zero and the empty string are falsy, a (nonempty) tuple is truthy. -/
def truthy : Value → Bool
  | .int n => !(n == 0)
  | .float q => !(q == 0)
  | .str s => !(s == "")
  | .bool b => b
  | .node _ => true

/-- `range(v)` at line 169: accepts `int` (negative bounds give an empty
range) and `bool`; any other type raises `TypeError`. -/
def rangeN : Value → Except Err Nat
  | .int n => .ok n.toNat
  | .bool b => .ok (if b then 1 else 0)
  | _ => .error .typeError

mutual

/-- `Interpreter.execute` (lines 156-174).  The result pairs the updated
environment with the list of values printed, in order.  A `DECLARE`
without initializer does nothing; with initializer it binds the name.
`IF` branches on truthiness (note Python's `elif else_block:` is also
false for an empty else block, but executing an empty block is a no-op
anyway).  `FOR` evaluates the bound and runs `range`.  `PRINT` emits the
evaluated value.  On a Python exception the output already emitted is not
carried by the `Except` error; no claim below inspects the output of a
failing run. -/
def execStmt : Nat → Env → Stmt → Except Err (Env × List Value)
  | 0, _, _ => .error .outOfFuel
  | f+1, env, s =>
    match s with
    | .declare _ _ none => .ok (env, [])
    | .declare _ name (some e) =>
      match evaluate env e with
      | .error er => .error er
      | .ok v => .ok (setVar env name v, [])
    | .ifS cond thn els =>
      match evaluate env cond with
      | .error er => .error er
      | .ok v =>
        if truthy v then execBlock f env thn
        else
          match els with
          | some b => execBlock f env b
          | none => .ok (env, [])
    | .forS x r body =>
      match evaluate env r with
      | .error er => .error er
      | .ok v =>
        match rangeN v with
        | .error er => .error er
        | .ok n => execFor f env x body 0 n
    | .printS e =>
      match evaluate env e with
      | .error er => .error er
      | .ok v => .ok (env, [v])

/-- `Interpreter.interpret` (lines 152-154): execute the statements in
order, threading the environment and concatenating the printed output. -/
def execBlock : Nat → Env → List Stmt → Except Err (Env × List Value)
  | 0, _, _ => .error .outOfFuel
  | _+1, env, [] => .ok (env, [])
  | f+1, env, s :: rest =>
    match execStmt f env s with
    | .error er => .error er
    | .ok (env1, out1) =>
      match execBlock f env1 rest with
      | .error er => .error er
      | .ok (env2, out2) => .ok (env2, out1 ++ out2)

/-- The loop of lines 169-171: for `i` in `range(n)` starting at `i`,
rebind the loop variable to `i`, run the body in full, then advance. -/
def execFor : Nat → Env → TokVal → List Stmt → Nat → Nat → Except Err (Env × List Value)
  | 0, _, _, _, _, _ => .error .outOfFuel
  | f+1, env, x, body, i, n =>
    if i < n then
      match execBlock f (setVar env x (.int i)) body with
      | .error er => .error er
      | .ok (env1, out1) =>
        match execFor f env1 x body (i+1) n with
        | .error er => .error er
        | .ok (env2, out2) => .ok (env2, out1 ++ out2)
    else .ok (env, [])

end

/-- The whole pipeline of `main.py` lines 225-230: tokenize the entire
source, then parse all of it, then interpret, starting from the empty
environment.  Tokenization runs to completion before the parser is even
constructed, and parsing completes before interpretation begins. -/
def run (src : String) : Except Err (Env × List Value) :=
  match tokenizeStr src with
  | .error e => .error e
  | .ok toks =>
    match parseTokens toks with
    | .error e => .error e
    | .ok prog => execBlock 1000000 [] prog

mutual

/-- Whether a statement (recursively, through nested blocks) contains a
`DECLARE` with an initializer or a `FOR` -- the only statement forms whose
execution writes `self.variables`. -/
def writesStmt : Stmt → Bool
  | .declare _ _ (some _) => true
  | .declare _ _ none => false
  | .ifS _ thn els => writesBlock thn || writesOptBlock els
  | .forS _ _ _ => true
  | .printS _ => false

/-- `writesStmt` over a block. -/
def writesBlock : List Stmt → Bool
  | [] => false
  | s :: rest => writesStmt s || writesBlock rest

/-- `writesStmt` over an optional else-block. -/
def writesOptBlock : Option (List Stmt) → Bool
  | none => false
  | some b => writesBlock b

end

/-- The decimal digit characters (only arguments below ten arise). -/
def digitChar : Nat → Char
  | 0 => '0'
  | 1 => '1'
  | 2 => '2'
  | 3 => '3'
  | 4 => '4'
  | 5 => '5'
  | 6 => '6'
  | 7 => '7'
  | 8 => '8'
  | _ => '9'

/-- Decimal digits of a natural number, fuelled (`n + 1` units always
suffice since the value shrinks by a factor of ten each step). -/
def natDigitsAux : Nat → Nat → List Char
  | 0, _ => []
  | f + 1, n =>
    if n < 10 then [digitChar n]
    else natDigitsAux f (n / 10) ++ [digitChar (n % 10)]

/-- Decimal digits of a natural number, most significant first. -/
def natDigits (n : Nat) : List Char := natDigitsAux (n + 1) n

/-- Python `str(value)` of a stored token value as a character list: the
decimal text of a NUMBER value (these are nonnegative for lexed tokens),
the stored text itself otherwise (for string-literal tokens this is the
quote-stripped content). -/
def renderValue : TokVal → List Char
  | .num n => if n < 0 then '-' :: natDigits n.natAbs else natDigits n.toNat
  | .str s => s.data

/-- Concatenation of all token literal texts with separating whitespace:
the round-trip construction of the spec (each token's text followed by a
space). -/
def renderTokens : List Token → List Char
  | [] => []
  | t :: ts => renderValue t.value ++ ' ' :: renderTokens ts

/-- Recognizer for the parser's diagnostic errors (the `RuntimeError`s it
raises itself, as opposed to host-level errors). -/
def isParseErr : Err → Bool
  | .parseError _ => true
  | _ => false

/-- C1: the claim says a bare identifier evaluates to the environment's
binding when bound and to the identifier's own name as a string otherwise.
The code does neither: the parser wraps identifiers as tuples
`('IDENT', name)` and `evaluate`'s tuple branch has no IDENT case, so
`return expr` (line 189) returns the raw tuple itself; the
bound-or-name lookup of lines 185-188 is dead code.  `print undefined_var`
therefore prints the tuple `('IDENT', 'undefined_var')`, not the text
`undefined_var`, and even a bound `x` prints as the tuple, not its value. -/
theorem C1_bare_identifier_evaluates_to_raw_tuple :
    run "print undefined_var" =
      .ok ([], [.node (.atom "IDENT" (.str "undefined_var"))]) ∧
    run "int x = 5 print x" =
      .ok ([(TokVal.str "x", Value.int 5)], [.node (.atom "IDENT" (.str "x"))]) ∧
    Value.node (.atom "IDENT" (.str "undefined_var")) ≠ Value.str "undefined_var" :=
  ⟨rfl, rfl, by decide⟩

/-- C2: expression parsing is flat and right-associative: an atom followed
by an OP token and more input parses as an Operation whose right child is
the whole remaining chain, and `int x = 1 - 2 - 3` parses as
`1 - (2 - 3)` and thus binds `x` to `2`. -/
theorem C2_flat_right_associative_parsing :
    (∀ (f : Nat) (k : String) (v o : TokVal) (ts : List Token),
        k = "NUMBER" ∨ k = "STRING" ∨ k = "IDENT" →
        parseExpression (f + 1) (⟨k, v⟩ :: ⟨"OP", o⟩ :: ts) =
          (parseExpression f ts).map
            (fun r => (.operation o (.atom k v) r.1, r.2))) ∧
    parseSource "int x = 1 - 2 - 3" =
      .ok [.declare (.str "int") (.str "x")
        (some (.operation (.str "-") (.atom "NUMBER" (.num 1))
          (.operation (.str "-") (.atom "NUMBER" (.num 2)) (.atom "NUMBER" (.num 3)))))] ∧
    run "int x = 1 - 2 - 3" = .ok ([(TokVal.str "x", Value.int 2)], []) := by
  refine ⟨?_, rfl, rfl⟩
  intro f k v o ts hk
  rcases hk with rfl | rfl | rfl <;>
  · cases hp : parseExpression f ts with
    | error e => simp [parseExpression, hp, Except.map]
    | ok p => cases p; simp [parseExpression, hp, Except.map]

/-- C2 witness: the general clause instantiated at `2 - 3`. -/
theorem C2_flat_right_associative_parsing_witness :
    parseExpression 3 (⟨"NUMBER", .num 2⟩ :: ⟨"OP", .str "-"⟩ :: [⟨"NUMBER", .num 3⟩]) =
      (parseExpression 2 [⟨"NUMBER", .num 3⟩]).map
        (fun r => (.operation (.str "-") (.atom "NUMBER" (.num 2)) r.1, r.2)) :=
  C2_flat_right_associative_parsing.1 2 "NUMBER" (.num 2) (.str "-")
    [⟨"NUMBER", .num 3⟩] (Or.inl rfl)

/-- C4 counterexample: the source `print`, whose token stream ends exactly
where an expression is required, does not fail with a diagnostic
`ParseError`; `parse_expression` subscripts `self.current_token` while it
is `None` (line 120) and the run dies with a host-level `TypeError`. -/
theorem C4_counterexample_eof_is_host_error :
    parseSource "print" = .error .noneSubscript ∧
    isParseErr .noneSubscript = false :=
  ⟨rfl, rfl⟩

/-- C4 (amended): the parser's own diagnostics are ParseErrors, but only
two sites name the unexpected token's kind: statement dispatch (line 72)
and the expression atom check (line 138); the missing-`)` check (line 124)
and the missing-`in` check (line 108) raise fixed-text ParseErrors that
name no token (sources `print ( 1 :` and `for`).  Moreover not every
parse failure is a ParseError: when the token stream is exhausted where an
expression atom is required (source `print`, line 120) or where the
declaration's identifier is required (source `int`, line 84's
`ident_token[1]` with `ident_token = None`), the parser subscripts the
absent current token and dies with a host-level `TypeError`; exhaustion at
the for-loop's `in` check, by contrast, is guarded by the truthiness test
`if self.current_token and ...` and yields the diagnostic ParseError even
at end of input. -/
theorem C4_parse_errors :
    (∀ (f : Nat) (t : Token) (ts : List Token),
        ¬(t.kind = "INT" ∨ t.kind = "STRING") → t.kind ≠ "IF" →
        t.kind ≠ "FOR" → t.kind ≠ "PRINT" →
        parseStatement (f + 1) (t :: ts) =
          .error (.parseError ("Unexpected token: " ++ t.kind))) ∧
    (∀ (f : Nat) (t : Token) (ts : List Token),
        t.kind ≠ "LPAREN" → ¬(t.kind = "NUMBER" ∨ t.kind = "STRING" ∨ t.kind = "IDENT") →
        parseExpression (f + 1) (t :: ts) =
          .error (.parseError ("Unexpected token in expression: " ++ t.kind))) ∧
    (∀ (f : Nat), parseExpression (f + 1) [] = .error .noneSubscript) ∧
    (∀ (f : Nat) (t : Token), parseDeclaration (f + 1) t [] = .error .noneSubscript) ∧
    (∀ (f : Nat), parseFor (f + 1) [] = .error (.parseError "Expected \"in\" in for loop")) ∧
    parseSource "print" = .error .noneSubscript ∧
    parseSource "int" = .error .noneSubscript ∧
    parseSource "for" = .error (.parseError "Expected \"in\" in for loop") ∧
    parseSource "print ( 1 :" = .error (.parseError "Expected \")\"") := by
  refine ⟨?_, ?_, fun _ => rfl, fun _ _ => rfl, fun _ => rfl, rfl, rfl, rfl, rfl⟩
  · intro f t ts h1 h2 h3 h4
    simp [parseStatement, h1, h2, h3, h4]
  · intro f t ts h1 h2
    simp [parseExpression, h1, h2]

/-- C4 witness: the diagnostic clause at a present-but-wrong token, and
the end-of-stream clause at fuel 7. -/
theorem C4_parse_errors_witness :
    parseStatement 8 [⟨"RBRACE", .str "\x7d"⟩] =
      .error (.parseError ("Unexpected token: " ++ "RBRACE")) ∧
    parseExpression 8 [] = .error .noneSubscript :=
  ⟨C4_parse_errors.1 7 ⟨"RBRACE", .str "\x7d"⟩ [] (by decide) (by decide)
      (by decide) (by decide),
    C4_parse_errors.2.2.1 7⟩

/-- C5 counterexample: the reserved word `string` is promoted to kind
`"STRING"` (`'string'.upper()`), exactly the kind of string-literal
tokens -- there is no separate STRING_TYPE kind -- and consequently a
statement that starts with a string literal IS dispatched to
`parse_declaration`: `"a" x = 1` parses as a declaration with type `a`. -/
theorem C5_counterexample_string_kind_collision :
    tokenizeStr "string" = .ok [⟨"STRING", .str "string"⟩] ∧
    tokenizeStr "\"hi\"" = .ok [⟨"STRING", .str "hi"⟩] ∧
    parseSource "\"a\" x = 1" =
      .ok [.declare (.str "a") (.str "x") (some (.atom "NUMBER" (.num 1)))] :=
  ⟨rfl, rfl, rfl⟩

/-- C5 (amended): tokenizing the reserved word `string` yields kind
`"STRING"`, the same kind as string-literal tokens (the promotion is
`value.upper()`, which collides with the literal kind), and statement
dispatch begins a declaration on kinds INT and STRING -- hence any token
of kind `"STRING"`, including a string literal, starts a declaration. -/
theorem C5_string_keyword_kind :
    tokenizeStr "string" = .ok [⟨"STRING", .str "string"⟩] ∧
    tokenizeStr "\"int\"" = .ok [⟨"STRING", .str "int"⟩] ∧
    (∀ (f : Nat) (v : TokVal) (ts : List Token),
        parseStatement (f + 1) (⟨"STRING", v⟩ :: ts) =
          parseDeclaration f ⟨"STRING", v⟩ ts) ∧
    parseSource "string s = \"ok\"" =
      .ok [.declare (.str "string") (.str "s") (some (.atom "STRING" (.str "ok")))] ∧
    parseSource "\"a\" y = 2" =
      .ok [.declare (.str "a") (.str "y") (some (.atom "NUMBER" (.num 2)))] := by
  refine ⟨rfl, rfl, ?_, rfl, rfl⟩
  intro f v ts
  simp [parseStatement]

/-- C8: `/` is true division: `int x = 4 / 2` binds `x` to the float 2.0
(modelled as the rational 2 under the `float` constructor), which is a
different runtime value from the integer 2. -/
theorem C8_division_is_true_division :
    run "int x = 4 / 2" = .ok ([(TokVal.str "x", Value.float 2)], []) ∧
    Value.float 2 ≠ Value.int 2 := by
  constructor
  · have h : ((4 : ℤ) : ℚ) / ((2 : ℤ) : ℚ) = 2 := by norm_num
    calc run "int x = 4 / 2"
        = .ok ([(TokVal.str "x", Value.float (((4 : ℤ) : ℚ) / ((2 : ℤ) : ℚ)))], []) := rfl
      _ = .ok ([(TokVal.str "x", Value.float 2)], []) := by rw [h]
  · decide

/-- C10: the whole source is tokenized before parsing or execution begins
(`main.py` lines 225-230 run the stages strictly in order), so a lexically
invalid character anywhere makes the run abort with the lexer's error and
produce no output at all -- even when print statements precede the bad
character, as in `print 1 \n@`. -/
theorem C10_lex_error_aborts_before_output :
    (∀ (src : String) (e : Err), tokenizeStr src = .error e → run src = .error e) ∧
    run "print 1 \n@" = .error (.lexError '@') := by
  refine ⟨?_, rfl⟩
  intro src e h
  simp [run, h]

/-- C10 witness: the general clause at the source `@`. -/
theorem C10_lex_error_aborts_before_output_witness :
    run "@" = .error (.lexError '@') :=
  C10_lex_error_aborts_before_output.1 "@" (.lexError '@') rfl

/-- Looking up the key just written finds the written value. -/
theorem getVar_setVar (env : Env) (x : TokVal) (v : Value) :
    getVar (setVar env x v) x = some v := by
  induction env with
  | nil => simp [setVar, getVar]
  | cons kv rest ih =>
    obtain ⟨k, w⟩ := kv
    by_cases h : k = x <;> simp [setVar, getVar, h, ih]


/-- Execution of statements that contain no initializing declaration and
no for-loop leaves the environment untouched, at every fuel. -/
theorem exec_frame_aux : ∀ (f : Nat),
    (∀ (env : Env) (s : Stmt) (env' : Env) (out : List Value),
        writesStmt s = false → execStmt f env s = .ok (env', out) → env' = env) ∧
    (∀ (env : Env) (l : List Stmt) (env' : Env) (out : List Value),
        writesBlock l = false → execBlock f env l = .ok (env', out) → env' = env) := by
  intro f
  induction f with
  | zero =>
    constructor <;> (intro env s env' out _ h; simp [execStmt, execBlock] at h)
  | succ f ih =>
    obtain ⟨ihS, ihB⟩ := ih
    constructor
    · intro env s env' out hw h
      match s with
      | .declare t n none =>
        simp [execStmt] at h
        exact h.1.symm
      | .declare t n (some e) => simp [writesStmt] at hw
      | .forS x r body => simp [writesStmt] at hw
      | .printS e =>
        simp only [execStmt] at h
        cases hv : evaluate env e with
        | error er => rw [hv] at h; cases h
        | ok v =>
          rw [hv] at h
          simp at h
          exact h.1.symm
      | .ifS cond thn els =>
        simp only [writesStmt, Bool.or_eq_false_iff] at hw
        simp only [execStmt] at h
        cases hv : evaluate env cond with
        | error er => simp [hv] at h
        | ok v =>
          simp only [hv] at h
          by_cases ht : truthy v = true
          · rw [if_pos ht] at h
            exact ihB env thn env' out hw.1 h
          · rw [if_neg ht] at h
            cases els with
            | none => simp at h; exact h.1.symm
            | some b =>
              have hwb : writesBlock b = false := by
                simpa [writesOptBlock] using hw.2
              exact ihB env b env' out hwb h
    · intro env l env' out hw h
      match l with
      | [] =>
        simp [execBlock] at h
        exact h.1.symm
      | s :: rest =>
        simp only [writesBlock, Bool.or_eq_false_iff] at hw
        simp only [execBlock] at h
        cases h1 : execStmt f env s with
        | error er => simp [h1] at h
        | ok p =>
          obtain ⟨env1, out1⟩ := p
          simp only [h1] at h
          cases h2 : execBlock f env1 rest with
          | error er => simp [h2] at h
          | ok q =>
            obtain ⟨env2, out2⟩ := q
            simp only [h2] at h
            simp at h
            rw [← h.1]
            exact (ihB env1 rest env2 out2 hw.2 h2).trans (ihS env s env1 out1 hw.1 h1)

/-- C9: expression evaluation never changes the variable environment (in
this embedding `evaluate` does not even take the environment by mutable
reference: the Python method contains no assignment to `self.variables`,
and its only reads are dead code), and the only statement forms whose
execution adds or rebinds a variable are a `DECLARE` with initializer and
a `FOR`: executing any statement containing neither returns the
environment exactly as it was. -/
theorem C9_only_declare_and_for_write :
    ∀ (f : Nat) (env : Env) (s : Stmt) (env' : Env) (out : List Value),
      writesStmt s = false → execStmt f env s = .ok (env', out) → env' = env :=
  fun f => (exec_frame_aux f).1

/-- C9 witness: a print statement (with a nested-if variant) leaves a
concrete environment unchanged. -/
theorem C9_only_declare_and_for_write_witness :
    ([(TokVal.str "a", Value.int 7)] : Env) = [(TokVal.str "a", Value.int 7)] :=
  C9_only_declare_and_for_write 3 [(TokVal.str "a", Value.int 7)]
    (.printS (.atom "NUMBER" (.num 1))) [(TokVal.str "a", Value.int 7)] [.int 1]
    (by simp [writesStmt]) rfl

/-- C3 counterexample: the claim asserts the loop variable is bound to
N-1 after every loop with N > 0, but a body that itself rebinds the loop
variable falsifies it: `for i in 3 : int i = 99 }` ends with `i = 99`,
not `3 - 1 = 2`.  (Blocks in this grammar are closed by `}` but never
opened by one, see `parseBlock`.) -/
theorem C3_counterexample_body_rebinds_loop_var :
    run "for i in 3 : int i = 99 \x7d" = .ok ([(TokVal.str "i", Value.int 99)], []) ∧
    Value.int 99 ≠ Value.int 2 :=
  ⟨rfl, by decide⟩

/-- If every successful execution of `body` preserves the binding of `x`,
then a for-loop over `body` that starts below its bound ends with `x`
bound to the last index `n - 1`. -/
theorem execFor_last (x : TokVal) (body : List Stmt)
    (hframe : ∀ (g : Nat) (e1 e2 : Env) (o : List Value),
        execBlock g e1 body = .ok (e2, o) → getVar e2 x = getVar e1 x) :
    ∀ (f : Nat) (env : Env) (i n : Nat) (env' : Env) (out : List Value),
      i < n → execFor f env x body i n = .ok (env', out) →
      getVar env' x = some (.int ((n : ℤ) - 1)) := by
  intro f
  induction f with
  | zero => intro env i n env' out hi h; simp [execFor] at h
  | succ f ih =>
    intro env i n env' out hi h
    simp only [execFor] at h
    rw [if_pos hi] at h
    cases h1 : execBlock f (setVar env x (.int i)) body with
    | error er => simp [h1] at h
    | ok p =>
      obtain ⟨env1, out1⟩ := p
      simp only [h1] at h
      cases h2 : execFor f env1 x body (i + 1) n with
      | error er => simp [h2] at h
      | ok q =>
        obtain ⟨env2, out2⟩ := q
        simp only [h2] at h
        simp at h
        by_cases hin : i + 1 < n
        · rw [← h.1]
          exact ih env1 (i + 1) n env2 out2 hin h2
        · have hn : i + 1 = n := by omega
          cases f with
          | zero => simp [execFor] at h2
          | succ f2 =>
            simp only [execFor] at h2
            rw [if_neg hin] at h2
            simp at h2
            have hv1 : getVar env1 x = some (.int i) := by
              rw [hframe _ _ _ _ h1, getVar_setVar]
            rw [← h.1, ← h2.1, hv1]
            have : (i : ℤ) = (n : ℤ) - 1 := by omega
            rw [this]

/-- Executing a single-print block never changes the environment
(helper used to discharge the no-rebinding hypothesis of C3's witness). -/
theorem execBlock_print_frame (e : Expr) :
    ∀ (g : Nat) (e1 e2 : Env) (o : List Value),
      execBlock g e1 [Stmt.printS e] = .ok (e2, o) → e2 = e1 := by
  intro g e1 e2 o h
  match g with
  | 0 => simp [execBlock] at h
  | 1 => simp [execBlock, execStmt] at h
  | g2 + 2 =>
    simp only [execBlock, execStmt] at h
    cases hv : evaluate e1 e with
    | error er => simp [hv] at h
    | ok v =>
      simp only [hv] at h
      simp [execBlock] at h
      exact h.1.symm

/-- C3 (amended): a For node evaluates its range bound; with integer value
N it runs the body once per index i = 0, 1, ..., N-1 in increasing order,
rebinding the loop variable to i before interpreting the body in full
(this is the structure of `execFor`).  When N is not positive the body
never runs and the environment -- in particular any prior binding of the
loop variable -- is exactly unchanged.  When N > 0 the loop variable
remains bound after the loop; it ends at N-1 PROVIDED the body itself
never rebinds the loop variable (the counterexample shows the claim's
unconditional "remains N-1" is false for bodies that rebind it).  The
closing conjunct runs `for i in 2 : print i }` end to end: two iterations
in order, final binding `i = 1 = N-1`. -/
theorem C3_for_loop_final_binding :
    (∀ (f : Nat) (env : Env) (x : TokVal) (r : Expr) (body : List Stmt)
        (N : ℤ) (env' : Env) (out : List Value),
        evaluate env r = .ok (.int N) →
        execStmt f env (.forS x r body) = .ok (env', out) →
        ((N ≤ 0 → env' = env) ∧
          (0 < N →
            (∀ (g : Nat) (e1 e2 : Env) (o : List Value),
                execBlock g e1 body = .ok (e2, o) → getVar e2 x = getVar e1 x) →
            getVar env' x = some (.int (N - 1))))) ∧
    run "for i in 2 : print i \x7d" =
      .ok ([(TokVal.str "i", Value.int 1)],
        [.node (.atom "IDENT" (.str "i")), .node (.atom "IDENT" (.str "i"))]) := by
  refine ⟨?_, rfl⟩
  intro f env x r body N env' out hev hexec
  match f with
  | 0 => simp [execStmt] at hexec
  | f + 1 =>
    simp only [execStmt, hev, rangeN] at hexec
    constructor
    · intro hN
      have h0 : N.toNat = 0 := by omega
      rw [h0] at hexec
      match f with
      | 0 => simp [execFor] at hexec
      | f2 + 1 =>
        simp only [execFor] at hexec
        rw [if_neg (by omega)] at hexec
        simp at hexec
        exact hexec.1.symm
    · intro hN hframe
      have := execFor_last x body hframe f env 0 N.toNat env' out (by omega) hexec
      rw [this]
      have hcast : (N.toNat : ℤ) - 1 = N - 1 := by omega
      rw [hcast]

/-- C3 witness: the general clause at `for i in 2` with body `print i`;
after the loop `i = 2 - 1`. -/
theorem C3_for_loop_final_binding_witness :
    getVar [(TokVal.str "i", Value.int 1)] (TokVal.str "i") = some (.int (2 - 1)) :=
  ((C3_for_loop_final_binding.1 64 [] (.str "i") (.atom "NUMBER" (.num 2))
      [.printS (.atom "IDENT" (.str "i"))] 2 [(.str "i", .int 1)]
      [.node (.atom "IDENT" (.str "i")), .node (.atom "IDENT" (.str "i"))]
      rfl rfl).2) (by norm_num)
    (fun g e1 e2 o h => by rw [execBlock_print_frame _ g e1 e2 o h])

/-- Dropping a prefix never lengthens a list. -/
theorem length_dropWhile_le' (p : Char → Bool) :
    ∀ (l : List Char), (l.dropWhile p).length ≤ l.length := by
  intro l
  induction l with
  | nil => simp
  | cons c l ih =>
    by_cases h : p c
    · simp only [List.dropWhile_cons, h, if_true, List.length_cons]
      omega
    · simp [List.dropWhile_cons, h]

/-- A run of `p`-characters followed by a non-`p` boundary splits exactly
at the boundary under `takeWhile`/`dropWhile`. -/
theorem span_append (p : Char → Bool) :
    ∀ (w r : List Char), (∀ c ∈ w, p c = true) →
      (∀ b, r.head? = some b → p b = false) →
      (w ++ r).takeWhile p = w ∧ (w ++ r).dropWhile p = r := by
  intro w
  induction w with
  | nil =>
    intro r _ hr
    cases r with
    | nil => simp
    | cons b r' =>
      have hb := hr b rfl
      simp [List.takeWhile_cons, List.dropWhile_cons, hb]
  | cons c w' ih =>
    intro r hw hr
    have hc : p c = true := hw c (by simp)
    have hrec := ih r (fun d hd => hw d (by simp [hd])) hr
    simp [List.takeWhile_cons, List.dropWhile_cons, hc, hrec.1, hrec.2]

/-- The head of a `dropWhile` result fails the predicate. -/
theorem dropWhile_head_false (p : Char → Bool) :
    ∀ (l : List Char) (d : Char) (r : List Char),
      l.dropWhile p = d :: r → p d = false := by
  intro l
  induction l with
  | nil => intro d r h; simp at h
  | cons c l ih =>
    intro d r h
    by_cases hc : p c = true
    · rw [List.dropWhile_cons_of_pos hc] at h
      exact ih d r h
    · have hc' : p c = false := by simpa using hc
      rw [List.dropWhile_cons_of_neg (by simp [hc'])] at h
      cases h
      exact hc'

/-- `tokStep`, NUMBER branch. -/
theorem tokStep_digit (recur : List Char → Except Err (List Token)) (c : Char)
    (rest : List Char) (h : isDigitCh c = true) :
    tokStep recur c rest =
      (recur (rest.dropWhile isDigitCh)).map
        (fun ts => ⟨"NUMBER", .num (digitsVal (c :: rest.takeWhile isDigitCh))⟩ :: ts) := by
  unfold tokStep
  rw [if_pos h]

/-- `tokStep`, IDENT branch. -/
theorem tokStep_ident (recur : List Char → Except Err (List Token)) (c : Char)
    (rest : List Char) (h1 : isDigitCh c = false) (h2 : isIdentStartCh c = true) :
    tokStep recur c rest =
      (recur (rest.dropWhile isIdentCh)).map
        (fun ts =>
          let s := String.mk (c :: rest.takeWhile isIdentCh)
          ⟨(kwKind s).getD "IDENT", .str s⟩ :: ts) := by
  unfold tokStep
  rw [if_neg (by simp [h1]), if_pos h2]

/-- `tokStep`, STRING branch with a closing quote. -/
theorem tokStep_string (recur : List Char → Except Err (List Token)) (c : Char)
    (rest rem : List Char) (h1 : isDigitCh c = false) (h2 : isIdentStartCh c = false)
    (h3 : (c == '"') = true)
    (hdw : rest.dropWhile (fun d => !(d == '"')) = '"' :: rem) :
    tokStep recur c rest =
      (recur rem).map
        (fun ts =>
          ⟨"STRING", .str (String.mk (rest.takeWhile (fun d => !(d == '"'))))⟩ :: ts) := by
  unfold tokStep
  rw [if_neg (by simp [h1]), if_neg (by simp [h2]), if_pos h3, hdw]
  rfl

/-- `tokStep`, OP branch. -/
theorem tokStep_op (recur : List Char → Except Err (List Token)) (c : Char)
    (rest : List Char) (h1 : isDigitCh c = false) (h2 : isIdentStartCh c = false)
    (h3 : (c == '"') = false) (h4 : isOpCh c = true) :
    tokStep recur c rest =
      (recur (rest.dropWhile isOpCh)).map
        (fun ts => ⟨"OP", .str (String.mk (c :: rest.takeWhile isOpCh))⟩ :: ts) := by
  unfold tokStep
  rw [if_neg (by simp [h1]), if_neg (by simp [h2]), if_neg (by simp [h3]), if_pos h4]

/-- `tokStep`, COLON branch. -/
theorem tokStep_colon (recur : List Char → Except Err (List Token)) (c : Char)
    (rest : List Char) (h1 : isDigitCh c = false) (h2 : isIdentStartCh c = false)
    (h3 : (c == '"') = false) (h4 : isOpCh c = false) (h5 : (c == ':') = true) :
    tokStep recur c rest = (recur rest).map (fun ts => ⟨"COLON", .str ":"⟩ :: ts) := by
  unfold tokStep
  rw [if_neg (by simp [h1]), if_neg (by simp [h2]), if_neg (by simp [h3]),
    if_neg (by simp [h4]), if_pos h5]

/-- `tokStep`, LPAREN branch. -/
theorem tokStep_lparen (recur : List Char → Except Err (List Token)) (c : Char)
    (rest : List Char) (h1 : isDigitCh c = false) (h2 : isIdentStartCh c = false)
    (h3 : (c == '"') = false) (h4 : isOpCh c = false) (h5 : (c == ':') = false)
    (h6 : (c == '(') = true) :
    tokStep recur c rest = (recur rest).map (fun ts => ⟨"LPAREN", .str "("⟩ :: ts) := by
  unfold tokStep
  rw [if_neg (by simp [h1]), if_neg (by simp [h2]), if_neg (by simp [h3]),
    if_neg (by simp [h4]), if_neg (by simp [h5]), if_pos h6]

/-- `tokStep`, RPAREN branch. -/
theorem tokStep_rparen (recur : List Char → Except Err (List Token)) (c : Char)
    (rest : List Char) (h1 : isDigitCh c = false) (h2 : isIdentStartCh c = false)
    (h3 : (c == '"') = false) (h4 : isOpCh c = false) (h5 : (c == ':') = false)
    (h6 : (c == '(') = false) (h7 : (c == ')') = true) :
    tokStep recur c rest = (recur rest).map (fun ts => ⟨"RPAREN", .str ")"⟩ :: ts) := by
  unfold tokStep
  rw [if_neg (by simp [h1]), if_neg (by simp [h2]), if_neg (by simp [h3]),
    if_neg (by simp [h4]), if_neg (by simp [h5]), if_neg (by simp [h6]), if_pos h7]

/-- `tokStep`, LBRACE branch. -/
theorem tokStep_lbrace (recur : List Char → Except Err (List Token)) (c : Char)
    (rest : List Char) (h1 : isDigitCh c = false) (h2 : isIdentStartCh c = false)
    (h3 : (c == '"') = false) (h4 : isOpCh c = false) (h5 : (c == ':') = false)
    (h6 : (c == '(') = false) (h7 : (c == ')') = false) (h8 : (c == lbraceCh) = true) :
    tokStep recur c rest = (recur rest).map (fun ts => ⟨"LBRACE", .str "\x7b"⟩ :: ts) := by
  unfold tokStep
  rw [if_neg (by simp [h1]), if_neg (by simp [h2]), if_neg (by simp [h3]),
    if_neg (by simp [h4]), if_neg (by simp [h5]), if_neg (by simp [h6]),
    if_neg (by simp [h7]), if_pos h8]

/-- `tokStep`, RBRACE branch. -/
theorem tokStep_rbrace (recur : List Char → Except Err (List Token)) (c : Char)
    (rest : List Char) (h1 : isDigitCh c = false) (h2 : isIdentStartCh c = false)
    (h3 : (c == '"') = false) (h4 : isOpCh c = false) (h5 : (c == ':') = false)
    (h6 : (c == '(') = false) (h7 : (c == ')') = false) (h8 : (c == lbraceCh) = false)
    (h9 : (c == rbraceCh) = true) :
    tokStep recur c rest = (recur rest).map (fun ts => ⟨"RBRACE", .str "\x7d"⟩ :: ts) := by
  unfold tokStep
  rw [if_neg (by simp [h1]), if_neg (by simp [h2]), if_neg (by simp [h3]),
    if_neg (by simp [h4]), if_neg (by simp [h5]), if_neg (by simp [h6]),
    if_neg (by simp [h7]), if_neg (by simp [h8]), if_pos h9]

/-- `tokStep`, SKIP branch. -/
theorem tokStep_skip (recur : List Char → Except Err (List Token)) (c : Char)
    (rest : List Char) (h1 : isDigitCh c = false) (h2 : isIdentStartCh c = false)
    (h3 : (c == '"') = false) (h4 : isOpCh c = false) (h5 : (c == ':') = false)
    (h6 : (c == '(') = false) (h7 : (c == ')') = false) (h8 : (c == lbraceCh) = false)
    (h9 : (c == rbraceCh) = false) (h10 : isSkipCh c = true) :
    tokStep recur c rest = recur rest := by
  unfold tokStep
  rw [if_neg (by simp [h1]), if_neg (by simp [h2]), if_neg (by simp [h3]),
    if_neg (by simp [h4]), if_neg (by simp [h5]), if_neg (by simp [h6]),
    if_neg (by simp [h7]), if_neg (by simp [h8]), if_neg (by simp [h9]), if_pos h10]

/-- `tokStep`, MISMATCH branch. -/
theorem tokStep_mismatch (recur : List Char → Except Err (List Token)) (c : Char)
    (rest : List Char) (h1 : isDigitCh c = false) (h2 : isIdentStartCh c = false)
    (h3 : (c == '"') = false) (h4 : isOpCh c = false) (h5 : (c == ':') = false)
    (h6 : (c == '(') = false) (h7 : (c == ')') = false) (h8 : (c == lbraceCh) = false)
    (h9 : (c == rbraceCh) = false) (h10 : isSkipCh c = false) :
    tokStep recur c rest = .error (.lexError c) := by
  unfold tokStep
  rw [if_neg (by simp [h1]), if_neg (by simp [h2]), if_neg (by simp [h3]),
    if_neg (by simp [h4]), if_neg (by simp [h5]), if_neg (by simp [h6]),
    if_neg (by simp [h7]), if_neg (by simp [h8]), if_neg (by simp [h9]),
    if_neg (by simp [h10])]

/-- `tokStep`, STRING branch with no closing quote. -/
theorem tokStep_string_unterminated (recur : List Char → Except Err (List Token))
    (c : Char) (rest : List Char) (h1 : isDigitCh c = false)
    (h2 : isIdentStartCh c = false) (h3 : (c == '"') = true)
    (hdw : rest.dropWhile (fun d => !(d == '"')) = []) :
    tokStep recur c rest = .error (.lexError '"') := by
  unfold tokStep
  rw [if_neg (by simp [h1]), if_neg (by simp [h2]), if_pos h3, hdw]

/-- Two continuations that agree on lists no longer than `rest` take the
same scanning step. -/
theorem tokStep_congr (r1 r2 : List Char → Except Err (List Token)) (c : Char)
    (rest : List Char) (h : ∀ l : List Char, l.length ≤ rest.length → r1 l = r2 l) :
    tokStep r1 c rest = tokStep r2 c rest := by
  by_cases h1 : isDigitCh c = true
  · rw [tokStep_digit r1 c rest h1, tokStep_digit r2 c rest h1,
      h _ (length_dropWhile_le' _ _)]
  have h1 : isDigitCh c = false := by simpa using h1
  by_cases h2 : isIdentStartCh c = true
  · rw [tokStep_ident r1 c rest h1 h2, tokStep_ident r2 c rest h1 h2,
      h _ (length_dropWhile_le' _ _)]
  have h2 : isIdentStartCh c = false := by simpa using h2
  by_cases h3 : (c == '"') = true
  · cases hdw : rest.dropWhile (fun d => !(d == '"')) with
    | nil =>
      rw [tokStep_string_unterminated r1 c rest h1 h2 h3 hdw,
        tokStep_string_unterminated r2 c rest h1 h2 h3 hdw]
    | cons d rem =>
      have hd : d = '"' := by
        have := dropWhile_head_false (fun d => !(d == '"')) rest d rem hdw
        simpa using this
      subst hd
      have hlen : rem.length ≤ rest.length := by
        have := length_dropWhile_le' (fun d => !(d == '"')) rest
        rw [hdw] at this
        simp at this
        omega
      rw [tokStep_string r1 c rest rem h1 h2 h3 hdw,
        tokStep_string r2 c rest rem h1 h2 h3 hdw, h rem hlen]
  have h3 : (c == '"') = false := by simpa using h3
  by_cases h4 : isOpCh c = true
  · rw [tokStep_op r1 c rest h1 h2 h3 h4, tokStep_op r2 c rest h1 h2 h3 h4,
      h _ (length_dropWhile_le' _ _)]
  have h4 : isOpCh c = false := by simpa using h4
  by_cases h5 : (c == ':') = true
  · rw [tokStep_colon r1 c rest h1 h2 h3 h4 h5, tokStep_colon r2 c rest h1 h2 h3 h4 h5,
      h _ (le_refl _)]
  have h5 : (c == ':') = false := by simpa using h5
  by_cases h6 : (c == '(') = true
  · rw [tokStep_lparen r1 c rest h1 h2 h3 h4 h5 h6,
      tokStep_lparen r2 c rest h1 h2 h3 h4 h5 h6, h _ (le_refl _)]
  have h6 : (c == '(') = false := by simpa using h6
  by_cases h7 : (c == ')') = true
  · rw [tokStep_rparen r1 c rest h1 h2 h3 h4 h5 h6 h7,
      tokStep_rparen r2 c rest h1 h2 h3 h4 h5 h6 h7, h _ (le_refl _)]
  have h7 : (c == ')') = false := by simpa using h7
  by_cases h8 : (c == lbraceCh) = true
  · rw [tokStep_lbrace r1 c rest h1 h2 h3 h4 h5 h6 h7 h8,
      tokStep_lbrace r2 c rest h1 h2 h3 h4 h5 h6 h7 h8, h _ (le_refl _)]
  have h8 : (c == lbraceCh) = false := by simpa using h8
  by_cases h9 : (c == rbraceCh) = true
  · rw [tokStep_rbrace r1 c rest h1 h2 h3 h4 h5 h6 h7 h8 h9,
      tokStep_rbrace r2 c rest h1 h2 h3 h4 h5 h6 h7 h8 h9, h _ (le_refl _)]
  have h9 : (c == rbraceCh) = false := by simpa using h9
  by_cases h10 : isSkipCh c = true
  · rw [tokStep_skip r1 c rest h1 h2 h3 h4 h5 h6 h7 h8 h9 h10,
      tokStep_skip r2 c rest h1 h2 h3 h4 h5 h6 h7 h8 h9 h10, h _ (le_refl _)]
  have h10 : isSkipCh c = false := by simpa using h10
  rw [tokStep_mismatch r1 c rest h1 h2 h3 h4 h5 h6 h7 h8 h9 h10,
    tokStep_mismatch r2 c rest h1 h2 h3 h4 h5 h6 h7 h8 h9 h10]

/-- The scanner's result does not depend on the fuel, as long as the fuel
exceeds the input length. -/
theorem tokenizeF_fuel_irrel :
    ∀ (n : Nat) (l : List Char), l.length ≤ n →
      ∀ (f g : Nat), l.length < f → l.length < g → tokenizeF f l = tokenizeF g l := by
  intro n
  induction n with
  | zero =>
    intro l hl f g hf hg
    have hnil : l = [] := by cases l <;> simp_all
    subst hnil
    match f, g, hf, hg with
    | f + 1, g + 1, _, _ => rfl
  | succ n ih =>
    intro l hl f g hf hg
    match l with
    | [] =>
      match f, g, hf, hg with
      | f + 1, g + 1, _, _ => rfl
    | c :: rest =>
      match f, g, hf, hg with
      | f + 1, g + 1, hf, hg =>
        show tokStep (tokenizeF f) c rest = tokStep (tokenizeF g) c rest
        apply tokStep_congr
        intro l2 hl2
        simp only [List.length_cons] at hl hf hg
        exact ih l2 (by omega) f g (by omega) (by omega)

/-- Collapse any sufficient fuel to the canonical `tokenizeL`. -/
theorem tokenizeF_eq_tokenizeL (f : Nat) (l : List Char) (h : l.length < f) :
    tokenizeF f l = tokenizeL l :=
  tokenizeF_fuel_irrel l.length l (le_refl _) f (l.length + 1) h (by omega)

/-- The scanner takes one `tokStep` on a nonempty input, recursing through
`tokenizeL` itself. -/
theorem tokenizeL_cons (c : Char) (rest : List Char) :
    tokenizeL (c :: rest) = tokStep tokenizeL c rest := by
  have h0 : tokenizeL (c :: rest) = tokStep (tokenizeF (rest.length + 1)) c rest := rfl
  rw [h0]
  apply tokStep_congr
  intro l hl
  exact tokenizeF_eq_tokenizeL (rest.length + 1) l (by omega)

/-- An OP character is one of the eight operator symbols. -/
theorem opCh_cases {c : Char} (h : isOpCh c = true) :
    c = '+' ∨ c = '-' ∨ c = '*' ∨ c = '/' ∨ c = '=' ∨ c = '<' ∨ c = '>' ∨ c = '!' := by
  simpa [isOpCh, or_assoc] using h

/-- An OP character starts no other token pattern. -/
theorem opCh_flags {c : Char} (h : isOpCh c = true) :
    isDigitCh c = false ∧ isIdentStartCh c = false ∧ (c == '"') = false := by
  rcases opCh_cases h with rfl | rfl | rfl | rfl | rfl | rfl | rfl | rfl <;> exact ⟨rfl, rfl, rfl⟩

/-- A maximal run of operator characters lexes as exactly one OP token
whose value is the entire run. -/
theorem tokenizeL_op_run :
    ∀ (w rest : List Char), w ≠ [] → (∀ c ∈ w, isOpCh c = true) →
      (∀ b, rest.head? = some b → isOpCh b = false) →
      tokenizeL (w ++ rest) =
        (tokenizeL rest).map (fun ts => ⟨"OP", .str (String.mk w)⟩ :: ts) := by
  intro w rest hne hw hr
  match w, hne with
  | c :: w', _ =>
    have hc : isOpCh c = true := hw c (by simp)
    obtain ⟨hd, hs, hq⟩ := opCh_flags hc
    have hspan := span_append isOpCh w' rest (fun d hd' => hw d (by simp [hd'])) hr
    rw [List.cons_append, tokenizeL_cons, tokStep_op tokenizeL c (w' ++ rest) hd hs hq hc,
      hspan.1, hspan.2]

/-- C7: at every input position, a maximal run of characters from the set
`+ - * / = < > !` is consumed as exactly one OP token whose value is the
whole run; in particular `==`, `!=`, `<=`, `>=` and also `+-` each lex as
a single OP token. -/
theorem C7_maximal_op_runs :
    (∀ (w rest : List Char), w ≠ [] → (∀ c ∈ w, isOpCh c = true) →
        (∀ b, rest.head? = some b → isOpCh b = false) →
        tokenizeL (w ++ rest) =
          (tokenizeL rest).map (fun ts => ⟨"OP", .str (String.mk w)⟩ :: ts)) ∧
    tokenizeStr "==" = .ok [⟨"OP", .str "=="⟩] ∧
    tokenizeStr "!=" = .ok [⟨"OP", .str "!="⟩] ∧
    tokenizeStr "<=" = .ok [⟨"OP", .str "<="⟩] ∧
    tokenizeStr ">=" = .ok [⟨"OP", .str ">="⟩] ∧
    tokenizeStr "+-" = .ok [⟨"OP", .str "+-"⟩] :=
  ⟨tokenizeL_op_run, rfl, rfl, rfl, rfl, rfl⟩

/-- C7 witness: the general clause at the run `+-` followed by `x`. -/
theorem C7_maximal_op_runs_witness :
    tokenizeL (['+', '-'] ++ ['x']) =
      (tokenizeL ['x']).map (fun ts => ⟨"OP", .str (String.mk ['+', '-'])⟩ :: ts) :=
  C7_maximal_op_runs.1 ['+', '-'] ['x'] (by decide) (by decide)
    (fun b hb => by cases hb; rfl)

/-- `digitChar` always yields a digit character. -/
theorem isDigitCh_digitChar : ∀ (d : Nat), isDigitCh (digitChar d) = true
  | 0 | 1 | 2 | 3 | 4 | 5 | 6 | 7 | 8 => rfl
  | _ + 9 => rfl

/-- With sufficient fuel, `natDigitsAux` is nonempty and all digits. -/
theorem natDigitsAux_digits : ∀ (f n : Nat), n < f →
    natDigitsAux f n ≠ [] ∧ ∀ c ∈ natDigitsAux f n, isDigitCh c = true := by
  intro f
  induction f with
  | zero => intro n h; omega
  | succ f ih =>
    intro n h
    by_cases h10 : n < 10
    · simp [natDigitsAux, h10, isDigitCh_digitChar]
    · have hrec := ih (n / 10) (by omega)
      simp only [natDigitsAux, if_neg h10]
      refine ⟨by simp, ?_⟩
      intro c hc
      rw [List.mem_append] at hc
      rcases hc with hc | hc
      · exact hrec.2 c hc
      · simp at hc
        rw [hc]
        exact isDigitCh_digitChar _

/-- `natDigits` is nonempty and all digits. -/
theorem natDigits_digits (n : Nat) :
    natDigits n ≠ [] ∧ ∀ c ∈ natDigits n, isDigitCh c = true :=
  natDigitsAux_digits (n + 1) n (by omega)

/-- Inversion of a successful `Except.map`. -/
theorem map_ok_inv {ε α β : Type} (g : α → β) (x : Except ε α) (y : β)
    (h : x.map g = .ok y) : ∃ a, x = .ok a ∧ y = g a := by
  cases x with
  | error e => simp [Except.map] at h
  | ok a =>
    simp [Except.map] at h
    exact ⟨a, rfl, h.symm⟩

/-- A maximal identifier run lexes as one token: an IDENT, or the matching
keyword kind when the text is reserved. -/
theorem tokenizeL_ident_run (c : Char) (w rest : List Char)
    (h1 : isDigitCh c = false) (h2 : isIdentStartCh c = true)
    (hw : ∀ d ∈ w, isIdentCh d = true)
    (hr : ∀ b, rest.head? = some b → isIdentCh b = false) :
    tokenizeL ((c :: w) ++ rest) =
      (tokenizeL rest).map
        (fun ts =>
          let s := String.mk (c :: w)
          ⟨(kwKind s).getD "IDENT", .str s⟩ :: ts) := by
  have hspan := span_append isIdentCh w rest hw hr
  rw [List.cons_append, tokenizeL_cons, tokStep_ident tokenizeL c (w ++ rest) h1 h2,
    hspan.1, hspan.2]

/-- A maximal digit run lexes as one NUMBER token. -/
theorem tokenizeL_number_run (c : Char) (w rest : List Char)
    (h1 : isDigitCh c = true) (hw : ∀ d ∈ w, isDigitCh d = true)
    (hr : ∀ b, rest.head? = some b → isDigitCh b = false) :
    tokenizeL ((c :: w) ++ rest) =
      (tokenizeL rest).map (fun ts => ⟨"NUMBER", .num (digitsVal (c :: w))⟩ :: ts) := by
  have hspan := span_append isDigitCh w rest hw hr
  rw [List.cons_append, tokenizeL_cons, tokStep_digit tokenizeL c (w ++ rest) h1,
    hspan.1, hspan.2]

/-- A leading space is skipped. -/
theorem tokenizeL_space (rest : List Char) : tokenizeL (' ' :: rest) = tokenizeL rest := by
  rw [tokenizeL_cons]
  exact tokStep_skip tokenizeL ' ' rest rfl rfl rfl rfl rfl rfl rfl rfl rfl rfl

/-- A leading colon lexes as one COLON token. -/
theorem tokenizeL_colon_cons (rest : List Char) :
    tokenizeL (':' :: rest) = (tokenizeL rest).map (fun ts => ⟨"COLON", .str ":"⟩ :: ts) := by
  rw [tokenizeL_cons]
  exact tokStep_colon tokenizeL ':' rest rfl rfl rfl rfl rfl

/-- A leading opening parenthesis lexes as one LPAREN token. -/
theorem tokenizeL_lparen_cons (rest : List Char) :
    tokenizeL ('(' :: rest) = (tokenizeL rest).map (fun ts => ⟨"LPAREN", .str "("⟩ :: ts) := by
  rw [tokenizeL_cons]
  exact tokStep_lparen tokenizeL '(' rest rfl rfl rfl rfl rfl rfl

/-- A leading closing parenthesis lexes as one RPAREN token. -/
theorem tokenizeL_rparen_cons (rest : List Char) :
    tokenizeL (')' :: rest) = (tokenizeL rest).map (fun ts => ⟨"RPAREN", .str ")"⟩ :: ts) := by
  rw [tokenizeL_cons]
  exact tokStep_rparen tokenizeL ')' rest rfl rfl rfl rfl rfl rfl rfl

/-- A leading opening brace lexes as one LBRACE token. -/
theorem tokenizeL_lbrace_cons (rest : List Char) :
    tokenizeL (lbraceCh :: rest) =
      (tokenizeL rest).map (fun ts => ⟨"LBRACE", .str "\x7b"⟩ :: ts) := by
  rw [tokenizeL_cons]
  exact tokStep_lbrace tokenizeL lbraceCh rest rfl rfl rfl rfl rfl rfl rfl rfl

/-- A leading closing brace lexes as one RBRACE token. -/
theorem tokenizeL_rbrace_cons (rest : List Char) :
    tokenizeL (rbraceCh :: rest) =
      (tokenizeL rest).map (fun ts => ⟨"RBRACE", .str "\x7d"⟩ :: ts) := by
  rw [tokenizeL_cons]
  exact tokStep_rbrace tokenizeL rbraceCh rest rfl rfl rfl rfl rfl rfl rfl rfl rfl

/-- Rendering a (necessarily nonnegative) NUMBER value and re-tokenizing
yields a NUMBER token again, then continues after the separating space. -/
theorem render_step_number (k : Nat) (r : List Char) :
    ∃ v', tokenizeL (renderValue (.num (k : ℤ)) ++ ' ' :: r) =
      (tokenizeL r).map (fun ts => ⟨"NUMBER", v'⟩ :: ts) := by
  have hneg : ¬((k : ℤ) < 0) := by omega
  have hrv : renderValue (.num (k : ℤ)) = natDigits k := by
    simp [renderValue, hneg]
  obtain ⟨hne, hdig⟩ := natDigits_digits k
  obtain ⟨c, w, hd⟩ : ∃ c w, natDigits k = c :: w := by
    cases h : natDigits k with
    | nil => exact absurd h hne
    | cons a b => exact ⟨a, b, rfl⟩
  refine ⟨.num (digitsVal (c :: w)), ?_⟩
  rw [hrv, hd, tokenizeL_number_run c w (' ' :: r) (hdig c (by rw [hd]; simp))
    (fun d hdm => hdig d (by rw [hd]; simp [hdm]))
    (fun b hb => by cases hb; rfl), tokenizeL_space]

/-- Rendering an identifier-shaped text and re-tokenizing yields one token
with the promoted keyword kind (or IDENT), then continues after the
space. -/
theorem render_step_ident (c : Char) (w r : List Char)
    (h1 : isDigitCh c = false) (h2 : isIdentStartCh c = true)
    (hw : ∀ d ∈ w, isIdentCh d = true) :
    tokenizeL ((c :: w) ++ ' ' :: r) =
      (tokenizeL r).map
        (fun ts =>
          ⟨(kwKind (String.mk (c :: w))).getD "IDENT", .str (String.mk (c :: w))⟩ :: ts) := by
  rw [tokenizeL_ident_run c w (' ' :: r) h1 h2 hw (fun b hb => by cases hb; rfl),
    tokenizeL_space]

/-- Rendering an operator run and re-tokenizing yields one OP token, then
continues after the space. -/
theorem render_step_op (c : Char) (w r : List Char)
    (hop : ∀ d ∈ (c :: w), isOpCh d = true) :
    tokenizeL ((c :: w) ++ ' ' :: r) =
      (tokenizeL r).map (fun ts => ⟨"OP", .str (String.mk (c :: w))⟩ :: ts) := by
  rw [tokenizeL_op_run (c :: w) (' ' :: r) (by simp) hop (fun b hb => by cases hb; rfl),
    tokenizeL_space]

/-- Round-trip core: rendering the tokens of a successfully lexed source
(with every STRING-kind token carrying the text `string`, i.e. no proper
string literal other than the reserved word itself) re-tokenizes to the
same sequence of kinds. -/
theorem roundtrip_aux :
    ∀ (n : Nat) (src : List Char), src.length ≤ n →
      ∀ (ts : List Token), tokenizeL src = .ok ts →
        (∀ t ∈ ts, t.kind = "STRING" → t.value = TokVal.str "string") →
        ∃ ts' : List Token, tokenizeL (renderTokens ts) = .ok ts' ∧
          ts'.map Token.kind = ts.map Token.kind := by
  intro n
  induction n with
  | zero =>
    intro src hl ts htok hstr
    have hsrc : src = [] := by cases src <;> simp_all
    subst hsrc
    have h2 : (Except.ok [] : Except Err (List Token)) = .ok ts := htok
    injection h2 with h3
    subst h3
    exact ⟨[], rfl, rfl⟩
  | succ n ih =>
    intro src hl ts htok hstr
    match src with
    | [] =>
      have h2 : (Except.ok [] : Except Err (List Token)) = .ok ts := htok
      injection h2 with h3
      subst h3
      exact ⟨[], rfl, rfl⟩
    | c :: rest =>
      rw [tokenizeL_cons] at htok
      simp only [List.length_cons] at hl
      by_cases h1 : isDigitCh c = true
      · -- NUMBER
        rw [tokStep_digit tokenizeL c rest h1] at htok
        obtain ⟨ts0, hrec, hts⟩ := map_ok_inv _ _ _ htok
        subst hts
        obtain ⟨ts1, hts1, hk1⟩ := ih (rest.dropWhile isDigitCh)
          (le_trans (length_dropWhile_le' _ _) (by omega)) ts0 hrec
          (fun t ht hk => hstr t (List.mem_cons_of_mem _ ht) hk)
        obtain ⟨v', hstep⟩ :=
          render_step_number (digitsVal (c :: rest.takeWhile isDigitCh)) (renderTokens ts0)
        refine ⟨⟨"NUMBER", v'⟩ :: ts1, ?_, ?_⟩
        · show tokenizeL (renderValue (TokVal.num (digitsVal (c :: rest.takeWhile isDigitCh)))
            ++ ' ' :: renderTokens ts0) = _
          rw [hstep, hts1]
          rfl
        · simp [hk1]
      have h1 : isDigitCh c = false := by simpa using h1
      by_cases h2 : isIdentStartCh c = true
      · -- IDENT or keyword
        rw [tokStep_ident tokenizeL c rest h1 h2] at htok
        obtain ⟨ts0, hrec, hts⟩ := map_ok_inv _ _ _ htok
        subst hts
        obtain ⟨ts1, hts1, hk1⟩ := ih (rest.dropWhile isIdentCh)
          (le_trans (length_dropWhile_le' _ _) (by omega)) ts0 hrec
          (fun t ht hk => hstr t (List.mem_cons_of_mem _ ht) hk)
        have hmem : ∀ d ∈ rest.takeWhile isIdentCh, isIdentCh d = true :=
          fun d hd => List.mem_takeWhile_imp hd
        refine ⟨⟨(kwKind (String.mk (c :: rest.takeWhile isIdentCh))).getD "IDENT",
            .str (String.mk (c :: rest.takeWhile isIdentCh))⟩ :: ts1, ?_, ?_⟩
        · show tokenizeL ((c :: rest.takeWhile isIdentCh) ++ ' ' :: renderTokens ts0) = _
          rw [render_step_ident c (rest.takeWhile isIdentCh) (renderTokens ts0) h1 h2 hmem,
            hts1]
          rfl
        · simp [hk1]
      have h2 : isIdentStartCh c = false := by simpa using h2
      by_cases h3 : (c == '"') = true
      · -- STRING literal: by hypothesis its content is the text `string`
        cases hdw : rest.dropWhile (fun d => !(d == '"')) with
        | nil =>
          rw [tokStep_string_unterminated tokenizeL c rest h1 h2 h3 hdw] at htok
          cases htok
        | cons d rem =>
          have hd : d = '"' := by
            have := dropWhile_head_false (fun d => !(d == '"')) rest d rem hdw
            simpa using this
          subst hd
          rw [tokStep_string tokenizeL c rest rem h1 h2 h3 hdw] at htok
          obtain ⟨ts0, hrec, hts⟩ := map_ok_inv _ _ _ htok
          subst hts
          have hlen : rem.length ≤ rest.length := by
            have := length_dropWhile_le' (fun d => !(d == '"')) rest
            rw [hdw] at this
            simp at this
            omega
          obtain ⟨ts1, hts1, hk1⟩ := ih rem (by omega) ts0 hrec
            (fun t ht hk => hstr t (List.mem_cons_of_mem _ ht) hk)
          have hval : TokVal.str (String.mk (rest.takeWhile (fun d => !(d == '"')))) =
              TokVal.str "string" :=
            hstr _ (List.mem_cons_self _ _) rfl
          injection hval with hval
          refine ⟨⟨"STRING", .str "string"⟩ :: ts1, ?_, ?_⟩
          · show tokenizeL (renderValue (TokVal.str
              (String.mk (rest.takeWhile (fun d => !(d == '"'))))) ++ ' ' :: renderTokens ts0) = _
            rw [hval]
            show tokenizeL (('s' :: ['t', 'r', 'i', 'n', 'g']) ++ ' ' :: renderTokens ts0) = _
            rw [render_step_ident 's' ['t', 'r', 'i', 'n', 'g'] (renderTokens ts0)
              rfl rfl (by decide), hts1]
            rfl
          · simp [hk1]
      have h3 : (c == '"') = false := by simpa using h3
      by_cases h4 : isOpCh c = true
      · -- OP
        rw [tokStep_op tokenizeL c rest h1 h2 h3 h4] at htok
        obtain ⟨ts0, hrec, hts⟩ := map_ok_inv _ _ _ htok
        subst hts
        obtain ⟨ts1, hts1, hk1⟩ := ih (rest.dropWhile isOpCh)
          (le_trans (length_dropWhile_le' _ _) (by omega)) ts0 hrec
          (fun t ht hk => hstr t (List.mem_cons_of_mem _ ht) hk)
        have hmem : ∀ d ∈ (c :: rest.takeWhile isOpCh), isOpCh d = true := by
          intro d hd
          rcases List.mem_cons.mp hd with rfl | hd
          · exact h4
          · exact List.mem_takeWhile_imp hd
        refine ⟨⟨"OP", .str (String.mk (c :: rest.takeWhile isOpCh))⟩ :: ts1, ?_, ?_⟩
        · show tokenizeL ((c :: rest.takeWhile isOpCh) ++ ' ' :: renderTokens ts0) = _
          rw [render_step_op c (rest.takeWhile isOpCh) (renderTokens ts0) hmem, hts1]
          rfl
        · simp [hk1]
      have h4 : isOpCh c = false := by simpa using h4
      by_cases h5 : (c == ':') = true
      · rw [tokStep_colon tokenizeL c rest h1 h2 h3 h4 h5] at htok
        obtain ⟨ts0, hrec, hts⟩ := map_ok_inv _ _ _ htok
        subst hts
        obtain ⟨ts1, hts1, hk1⟩ := ih rest (by omega) ts0 hrec
          (fun t ht hk => hstr t (List.mem_cons_of_mem _ ht) hk)
        refine ⟨⟨"COLON", .str ":"⟩ :: ts1, ?_, ?_⟩
        · show tokenizeL (':' :: ' ' :: renderTokens ts0) = _
          rw [tokenizeL_colon_cons, tokenizeL_space, hts1]
          rfl
        · simp [hk1]
      have h5 : (c == ':') = false := by simpa using h5
      by_cases h6 : (c == '(') = true
      · rw [tokStep_lparen tokenizeL c rest h1 h2 h3 h4 h5 h6] at htok
        obtain ⟨ts0, hrec, hts⟩ := map_ok_inv _ _ _ htok
        subst hts
        obtain ⟨ts1, hts1, hk1⟩ := ih rest (by omega) ts0 hrec
          (fun t ht hk => hstr t (List.mem_cons_of_mem _ ht) hk)
        refine ⟨⟨"LPAREN", .str "("⟩ :: ts1, ?_, ?_⟩
        · show tokenizeL ('(' :: ' ' :: renderTokens ts0) = _
          rw [tokenizeL_lparen_cons, tokenizeL_space, hts1]
          rfl
        · simp [hk1]
      have h6 : (c == '(') = false := by simpa using h6
      by_cases h7 : (c == ')') = true
      · rw [tokStep_rparen tokenizeL c rest h1 h2 h3 h4 h5 h6 h7] at htok
        obtain ⟨ts0, hrec, hts⟩ := map_ok_inv _ _ _ htok
        subst hts
        obtain ⟨ts1, hts1, hk1⟩ := ih rest (by omega) ts0 hrec
          (fun t ht hk => hstr t (List.mem_cons_of_mem _ ht) hk)
        refine ⟨⟨"RPAREN", .str ")"⟩ :: ts1, ?_, ?_⟩
        · show tokenizeL (')' :: ' ' :: renderTokens ts0) = _
          rw [tokenizeL_rparen_cons, tokenizeL_space, hts1]
          rfl
        · simp [hk1]
      have h7 : (c == ')') = false := by simpa using h7
      by_cases h8 : (c == lbraceCh) = true
      · rw [tokStep_lbrace tokenizeL c rest h1 h2 h3 h4 h5 h6 h7 h8] at htok
        obtain ⟨ts0, hrec, hts⟩ := map_ok_inv _ _ _ htok
        subst hts
        obtain ⟨ts1, hts1, hk1⟩ := ih rest (by omega) ts0 hrec
          (fun t ht hk => hstr t (List.mem_cons_of_mem _ ht) hk)
        refine ⟨⟨"LBRACE", .str "\x7b"⟩ :: ts1, ?_, ?_⟩
        · show tokenizeL (lbraceCh :: ' ' :: renderTokens ts0) = _
          rw [tokenizeL_lbrace_cons, tokenizeL_space, hts1]
          rfl
        · simp [hk1]
      have h8 : (c == lbraceCh) = false := by simpa using h8
      by_cases h9 : (c == rbraceCh) = true
      · rw [tokStep_rbrace tokenizeL c rest h1 h2 h3 h4 h5 h6 h7 h8 h9] at htok
        obtain ⟨ts0, hrec, hts⟩ := map_ok_inv _ _ _ htok
        subst hts
        obtain ⟨ts1, hts1, hk1⟩ := ih rest (by omega) ts0 hrec
          (fun t ht hk => hstr t (List.mem_cons_of_mem _ ht) hk)
        refine ⟨⟨"RBRACE", .str "\x7d"⟩ :: ts1, ?_, ?_⟩
        · show tokenizeL (rbraceCh :: ' ' :: renderTokens ts0) = _
          rw [tokenizeL_rbrace_cons, tokenizeL_space, hts1]
          rfl
        · simp [hk1]
      have h9 : (c == rbraceCh) = false := by simpa using h9
      by_cases h10 : isSkipCh c = true
      · rw [tokStep_skip tokenizeL c rest h1 h2 h3 h4 h5 h6 h7 h8 h9 h10] at htok
        exact ih rest (by omega) ts htok hstr
      have h10 : isSkipCh c = false := by simpa using h10
      rw [tokStep_mismatch tokenizeL c rest h1 h2 h3 h4 h5 h6 h7 h8 h9 h10] at htok
      cases htok

/-- C6 counterexample: a string-literal token stores its text with the
quotes stripped, so the rendered concatenation re-tokenizes with a
different kind: source `"hi"` lexes as one STRING token, but its literal
text `hi` re-tokenizes as an IDENT token. -/
theorem C6_counterexample_string_literal :
    tokenizeStr "\"hi\"" = .ok [⟨"STRING", .str "hi"⟩] ∧
    renderTokens [⟨"STRING", .str "hi"⟩] = ['h', 'i', ' '] ∧
    tokenizeL ['h', 'i', ' '] = .ok [⟨"IDENT", .str "hi"⟩] ∧
    ("IDENT" : String) ≠ "STRING" :=
  ⟨rfl, rfl, rfl, by decide⟩

/-- C6 (amended): for every source that tokenizes successfully and whose
token sequence contains no proper string literal (every STRING-kind token
carries the text `string`, which covers the reserved word itself),
re-tokenizing the whitespace-separated concatenation of the token literal
texts reproduces the same sequence of token kinds.  The restriction is
forced by the counterexample: a string literal's stored text has its
quotes stripped and re-tokenizes as other kinds (or, when empty,
disappears). -/
theorem C6_lexer_round_trip :
    ∀ (src : List Char) (ts : List Token),
      tokenizeL src = .ok ts →
      (∀ t ∈ ts, t.kind = "STRING" → t.value = TokVal.str "string") →
      ∃ ts', tokenizeL (renderTokens ts) = .ok ts' ∧
        ts'.map Token.kind = ts.map Token.kind :=
  fun src ts htok hstr => roundtrip_aux src.length src (le_refl _) ts htok hstr

/-- C6 witness: the round trip at the concrete source `int x = 5`. -/
theorem C6_lexer_round_trip_witness :
    ∃ ts', tokenizeL (renderTokens [⟨"INT", .str "int"⟩, ⟨"IDENT", .str "x"⟩,
        ⟨"OP", .str "="⟩, ⟨"NUMBER", .num 5⟩]) = .ok ts' ∧
      ts'.map Token.kind = [(⟨"INT", .str "int"⟩ : Token), ⟨"IDENT", .str "x"⟩,
        ⟨"OP", .str "="⟩, ⟨"NUMBER", .num 5⟩].map Token.kind :=
  C6_lexer_round_trip ("int x = 5".data)
    [⟨"INT", .str "int"⟩, ⟨"IDENT", .str "x"⟩, ⟨"OP", .str "="⟩, ⟨"NUMBER", .num 5⟩]
    rfl (by decide)
